import Mathlib

/-!
Verification development for the threatmodel-for-aws-s3 rendering pipeline.

The Python sources under `.github/scripts/` are shallowly embedded below:
* `threat_opacity_xml_creator.py` — tag grammar validation, tag inventory,
  and the per-tag variant generators (`FCx_do_hide`, `FCx_Ty_do_hide`,
  `make_tags_gray`, `generate_FCx_files`, `generate_FCx_Ty_files`,
  `get_all_FCx_Tx_values`, `make_validation`, `decompress`).
* `render.py` (duplicated verbatim in `sync_and_render.py`) — the diagram
  codec `write_decompressed_main` and the renderer driver `drawio_export`.

Python strings are modelled as Lean `String`s; the handful of Python string
operations the scripts use (`split`, `strip`, `in`, slicing) are implemented
below on `List Char` so that every definition reduces in the kernel.
-/

namespace ThreatModel

/-- Model of Python `str.split(sep)` on character lists: split at every
separator occurrence, keeping empty chunks (`"a,,b".split(',') = ['a','','b']`,
`"".split(',') = ['']`). -/
def pySplit (sep : Char) : List Char → List (List Char)
  | [] => [[]]
  | c :: rest =>
    match pySplit sep rest with
    | [] => [[]]
    | grp :: gs => if c = sep then [] :: grp :: gs else (c :: grp) :: gs

/-- Characters removed by Python `str.strip()` with no arguments (ASCII
whitespace; the rare further Unicode whitespace is not used by the repo). -/
def isPySpace (c : Char) : Bool :=
  c = ' ' || c = '\t' || c = '\n' || c = '\r' || c = '\x0b' || c = '\x0c'

/-- Model of Python `str.strip()`: drop leading and trailing whitespace. -/
def pyStripChars (cs : List Char) : List Char :=
  ((cs.dropWhile isPySpace).reverse.dropWhile isPySpace).reverse

/-- String-level `str.strip()`. -/
def pyStrip (s : String) : String :=
  String.mk (pyStripChars s.toList)

/-- String-level `str.split(sep)`. -/
def pySplitOn (sep : Char) (s : String) : List String :=
  (pySplit sep s.toList).map String.mk

/-- Model of Python `c in s` for a single character. -/
def pyInChar (c : Char) (s : String) : Bool :=
  s.toList.contains c

/-- Model of Python `s[-n:]`: the last `n` characters (the whole string when
it is shorter). -/
def pyLastN (n : Nat) (s : String) : String :=
  String.mk (s.toList.drop (s.toList.length - n))

/-- Model of Python `'\n'.join(lines)`. -/
def joinNL : List String → String
  | [] => ""
  | [l] => l
  | l :: ls => l ++ "\n" ++ joinNL ls

/-- Model of `threat.split('_')[0]` — everything before the first underscore
(the whole string when there is none). -/
def fcPart (s : String) : String :=
  (pySplitOn '_' s).headD s

/-- Token list used by `FCx_do_hide` / `FCx_Ty_do_hide`:
`[x.strip() for x in s.split(',') if x.strip()]`. -/
def splitTokens (s : String) : List String :=
  ((pySplitOn ',' s).map pyStrip).filter (fun x => x ≠ "")

/-- Token list of an optional attribute, as in `(tag.get(a) or '')`. -/
def attrTokens (a : Option String) : List String :=
  splitTokens (a.getD "")

/-- An `mxCell` element: only its `style` attribute matters to the scripts
(absent versus present, and the appended opacity suffix). -/
structure MxCell where
  style : Option String
deriving DecidableEq, Repr

/-- An annotated `object` element: its `threat` and `feature_class`
attributes (absent = `none`) and its nested `mxCell` elements. -/
structure ObjectTag where
  threat : Option String
  feature_class : Option String
  cells : List MxCell
deriving DecidableEq, Repr

/-- Contents of the canonical graph's `root` element: the plain top-level
`root > mxCell` cells and the annotated `root > object` elements. -/
structure GraphM where
  rootCells : List MxCell
  objects : List ObjectTag
deriving DecidableEq, Repr

/-- The fixed low-visibility constant `OPACITY_PERCENT` of
`threat_opacity_xml_creator.py`. -/
def OPACITY_PERCENT : Nat := 10

/-- The opacity key/value text appended by `make_tags_gray`. -/
def dimText : String :=
  "textOpacity=" ++ toString OPACITY_PERCENT ++ ";opacity=" ++ toString OPACITY_PERCENT ++ ";"

/-- Style update of `make_tags_gray` for one tag: append
`;textOpacity=10;opacity=10;` when a non-empty style exists (Python truthiness
of `tag.get('style')`), otherwise set `textOpacity=10;opacity=10;`. -/
def grayStyle (s : Option String) : Option String :=
  match s with
  | some st => if st = "" then some dimText else some (st ++ ";" ++ dimText)
  | none => some dimText

/-- The `make_tags_gray` mutation on a single `mxCell`. -/
def make_tags_gray_cell (c : MxCell) : MxCell :=
  ⟨grayStyle c.style⟩

/-- `FCx_do_hide(curr_fc_value, object_tag)` from
`threat_opacity_xml_creator.py` lines 167-191: the element is kept (returns
`false`) when the target value sits in its feature classes, the feature
classes include `all`, or some threat token is `all`, has the target value as
its underscore-front part, or equals its own front part followed by `_all`. -/
def FCx_do_hide (curr_fc_value : String) (object_tag : ObjectTag) : Bool :=
  let feature_class := attrTokens object_tag.feature_class
  let threat_list := attrTokens object_tag.threat
  if feature_class.contains curr_fc_value then false
  else if feature_class.contains "all" then false
  else if threat_list.any (fun threat =>
      threat == "all" || fcPart threat == curr_fc_value || (fcPart threat ++ "_all") == threat)
    then false
  else true

/-- `FCx_Ty_do_hide(curr_t_value, object_tag)` from
`threat_opacity_xml_creator.py` lines 193-215: hide when the `threat`
attribute is missing or falsy; otherwise keep exactly when the token list
contains the target value, `all`, or the target's FC front part + `_all`. -/
def FCx_Ty_do_hide (curr_t_value : String) (object_tag : ObjectTag) : Bool :=
  match object_tag.threat with
  | none => true
  | some s =>
    if s = "" then true
    else
      let threat := splitTokens s
      let curr_fc_value := fcPart curr_t_value
      let key2 := curr_fc_value ++ "_all"
      if !threat.contains curr_t_value && !threat.contains "all" && !threat.contains key2
        then true
      else false

/-- The per-target-value body of `generate_FCx_files`: gray every
`root > mxCell` unconditionally, and the nested cells of every `object` that
`FCx_do_hide` marks hidden. -/
def generate_FCx_variant (g : GraphM) (fc_value : String) : GraphM :=
  { rootCells := g.rootCells.map make_tags_gray_cell,
    objects := g.objects.map (fun object_tag =>
      if FCx_do_hide fc_value object_tag
        then { object_tag with cells := object_tag.cells.map make_tags_gray_cell }
        else object_tag) }

/-- The per-target-value body of `generate_FCx_Ty_files`: gray every
`root > mxCell` unconditionally, and the nested cells of every `object` that
`FCx_Ty_do_hide` marks hidden. -/
def generate_FCx_Ty_variant (g : GraphM) (t_value : String) : GraphM :=
  { rootCells := g.rootCells.map make_tags_gray_cell,
    objects := g.objects.map (fun object_tag =>
      if FCx_Ty_do_hide t_value object_tag
        then { object_tag with cells := object_tag.cells.map make_tags_gray_cell }
        else object_tag) }

/-- Keep rule of the feature-class variant as the specification words it:
the target value is listed in the element's feature classes, the feature
classes contain `all`, some threat token is `all`, some threat token's FC
front part equals the target value, or some threat token equals the target
value followed by `_all`. Stated separately from `FCx_do_hide` so the two
can be compared. -/
def FCx_keep_claimed (x : String) (ot : ObjectTag) : Bool :=
  (attrTokens ot.feature_class).contains x ||
  (attrTokens ot.feature_class).contains "all" ||
  (attrTokens ot.threat).contains "all" ||
  (attrTokens ot.threat).any (fun t => fcPart t == x) ||
  (attrTokens ot.threat).contains (x ++ "_all")

/-- `FCx_do_hide` returns `false` (the element is kept) exactly when the
target value sits in the feature classes, the feature classes contain `all`,
or some threat token is `all`, has the target value as its FC front part, or
is of the shape "own front part + `_all`". -/
theorem FCx_do_hide_eq_false_iff (x : String) (ot : ObjectTag) :
    FCx_do_hide x ot = false ↔
      x ∈ attrTokens ot.feature_class ∨ "all" ∈ attrTokens ot.feature_class ∨
      ∃ t ∈ attrTokens ot.threat, t = "all" ∨ fcPart t = x ∨ t = fcPart t ++ "_all" := by
  simp only [FCx_do_hide]
  split_ifs with h1 h2 h3
  · simp only [List.elem_iff] at h1
    simp [h1]
  · simp only [List.elem_iff] at h2
    simp [h2]
  · simp only [List.any_eq_true, Bool.or_eq_true, beq_iff_eq] at h3
    obtain ⟨t, ht, hcase⟩ := h3
    simp only [eq_self_iff_true, true_iff]
    refine Or.inr (Or.inr ⟨t, ht, ?_⟩)
    tauto
  · simp only [List.elem_iff] at h1 h2
    simp only [List.any_eq_true, Bool.or_eq_true, beq_iff_eq] at h3
    push_neg at h3
    constructor
    · intro h
      simp at h
    · rintro (h | h | ⟨t, ht, hc⟩)
      · exact absurd h h1
      · exact absurd h h2
      · exfalso
        rcases hc with hc | hc | hc
        · exact (h3 t ht).1.1 hc
        · exact (h3 t ht).1.2 hc
        · exact (h3 t ht).2 hc.symm

/-- `FCx_Ty_do_hide` returns `false` (the element is kept) exactly when a
non-empty `threat` attribute is present whose token list contains the target
value, `all`, or the target value's FC front part followed by `_all`. -/
theorem FCx_Ty_do_hide_eq_false_iff (v : String) (ot : ObjectTag) :
    FCx_Ty_do_hide v ot = false ↔
      ∃ s, ot.threat = some s ∧ s ≠ "" ∧
        (v ∈ splitTokens s ∨ "all" ∈ splitTokens s ∨ (fcPart v ++ "_all") ∈ splitTokens s) := by
  match h : ot.threat with
  | none => simp [FCx_Ty_do_hide, h]
  | some s =>
    by_cases hs : s = ""
    · simp [FCx_Ty_do_hide, h, hs]
    · have hval : FCx_Ty_do_hide v ot =
          !((splitTokens s).contains v || (splitTokens s).contains "all" ||
            (splitTokens s).contains (fcPart v ++ "_all")) := by
        simp only [FCx_Ty_do_hide, h, hs, if_neg]
        cases hA : (splitTokens s).contains v <;>
          cases hB : (splitTokens s).contains "all" <;>
            cases hC : (splitTokens s).contains (fcPart v ++ "_all") <;>
              simp [hA, hB, hC]
      rw [hval]
      simp only [Bool.not_eq_false', Bool.or_eq_true, List.elem_iff]
      constructor
      · intro hmem
        exact ⟨s, rfl, hs, or_assoc.mp hmem⟩
      · rintro ⟨s2, hs2, _, hmem⟩
        injection hs2 with hs2
        subst hs2
        exact or_assoc.mpr hmem

/-- C1 (amended). For every feature-class target value and every annotated
element, the variant generator keeps the element (does not dim it) exactly
when the value is listed in the element's feature classes, the feature
classes contain `all`, or some threat token equals `all`, has the target
value as its FC-prefix, or equals its own FC-prefix followed by `_all`; every
element failing this rule has the dimming style applied to its nested cells,
and every non-annotated top-level structural cell is dimmed unconditionally. -/
theorem FCx_variant_keep_and_dim :
    (∀ (x : String) (ot : ObjectTag), FCx_do_hide x ot = false ↔
      x ∈ attrTokens ot.feature_class ∨ "all" ∈ attrTokens ot.feature_class ∨
      ∃ t ∈ attrTokens ot.threat, t = "all" ∨ fcPart t = x ∨ t = fcPart t ++ "_all") ∧
    (∀ (g : GraphM) (x : String),
      (generate_FCx_variant g x).rootCells = g.rootCells.map make_tags_gray_cell ∧
      (generate_FCx_variant g x).objects = g.objects.map (fun ot =>
        if FCx_do_hide x ot then { ot with cells := ot.cells.map make_tags_gray_cell } else ot)) :=
  ⟨FCx_do_hide_eq_false_iff, fun _ _ => ⟨rfl, rfl⟩⟩

/-- An element whose only annotation is `threat="FC2_all"` and a single
plain nested cell. -/
def c1_tag : ObjectTag :=
  ⟨some "FC2_all", none, [⟨none⟩]⟩

/-- C1 as stated is false: for target value `FC1`, the element with
`threat="FC2_all"` satisfies none of the claimed keep conditions
(`FCx_keep_claimed` is false), yet `FCx_do_hide` keeps it and the generated
variant leaves it undimmed, because the code compares each threat token
against its own FC-prefix + `_all` rather than against the target value. -/
theorem FCx_variant_keep_counterexample :
    FCx_do_hide "FC1" c1_tag = false ∧
    (generate_FCx_variant ⟨[], [c1_tag]⟩ "FC1").objects = [c1_tag] ∧
    FCx_keep_claimed "FC1" c1_tag = false := by
  decide

/-- C2. For every threat target value and every annotated element: an
element with no `threat` attribute (or an empty one) is always dimmed;
otherwise it is kept exactly when its threat token list contains the literal
target value, `all`, or the target value's own FC prefix followed by `_all`.
Non-annotated top-level cells are dimmed unconditionally. -/
theorem FCx_Ty_variant_keep_and_dim :
    (∀ (v : String) (ot : ObjectTag), FCx_Ty_do_hide v ot = false ↔
      ∃ s, ot.threat = some s ∧ s ≠ "" ∧
        (v ∈ splitTokens s ∨ "all" ∈ splitTokens s ∨ (fcPart v ++ "_all") ∈ splitTokens s)) ∧
    (∀ (g : GraphM) (v : String),
      (generate_FCx_Ty_variant g v).rootCells = g.rootCells.map make_tags_gray_cell ∧
      (generate_FCx_Ty_variant g v).objects = g.objects.map (fun ot =>
        if FCx_Ty_do_hide v ot then { ot with cells := ot.cells.map make_tags_gray_cell } else ot)) :=
  ⟨FCx_Ty_do_hide_eq_false_iff, fun _ _ => ⟨rfl, rfl⟩⟩

/-- Token list contributed by one `object` tag in `get_all_FCx_Tx_values`:
comma-split and stripped `threat` tokens followed by comma-split and
stripped `feature_class` tokens (a falsy attribute contributes nothing). -/
def tokensOfTag (tag : ObjectTag) : List String :=
  (match tag.threat with
   | none => []
   | some s => if s = "" then [] else (pySplitOn ',' s).map pyStrip) ++
  (match tag.feature_class with
   | none => []
   | some s => if s = "" then [] else (pySplitOn ',' s).map pyStrip)

/-- The flat `values` list accumulated over all object tags by
`get_all_FCx_Tx_values`. -/
def allValues : List ObjectTag → List String
  | [] => []
  | t :: ts => tokensOfTag t ++ allValues ts

/-- One classification step of `get_all_FCx_Tx_values`: a token containing
`_` goes to the T set, the token `all` is discarded, anything else goes to
the FC set. -/
def classifyStep (acc : Finset String × Finset String) (v : String) :
    Finset String × Finset String :=
  if pyInChar '_' v then (acc.1, insert v acc.2)
  else if v = "all" then acc
  else (insert v acc.1, acc.2)

/-- `get_all_FCx_Tx_values` from `threat_opacity_xml_creator.py` lines
307-348, returning the pair (FC set, T set). -/
def get_all_FCx_Tx_values (tags : List ObjectTag) : Finset String × Finset String :=
  (allValues tags).foldl classifyStep (∅, ∅)

/-- Membership in the classification fold, relative to an arbitrary
accumulator. -/
theorem mem_classify_foldl (values : List String) (acc : Finset String × Finset String)
    (v : String) :
    (v ∈ (values.foldl classifyStep acc).1 ↔
      v ∈ acc.1 ∨ (v ∈ values ∧ pyInChar '_' v = false ∧ v ≠ "all")) ∧
    (v ∈ (values.foldl classifyStep acc).2 ↔
      v ∈ acc.2 ∨ (v ∈ values ∧ pyInChar '_' v = true)) := by
  induction values generalizing acc with
  | nil => simp
  | cons w rest ih =>
    simp only [List.foldl_cons]
    have h1 := (ih (classifyStep acc w)).1
    have h2 := (ih (classifyStep acc w)).2
    by_cases hvw : v = w
    · subst hvw
      constructor
      · rw [h1]
        unfold classifyStep
        split_ifs with hin hall <;> simp_all
      · rw [h2]
        unfold classifyStep
        split_ifs with hin hall <;> simp_all
    · constructor
      · rw [h1]
        unfold classifyStep
        split_ifs with hin hall <;> simp_all [hvw]
      · rw [h2]
        unfold classifyStep
        split_ifs with hin hall <;> simp_all [hvw]

/-- C7. The inventory splits both attributes of every annotated element on
commas, strips tokens, and classifies each token: a token containing `_`
lands in the T set, the literal `all` is discarded, and any other token
lands in the FC set; in particular `feature_class="FC1,FC2"` with
`threat="FC1_T1"` yields FC = {FC1, FC2} and T = {FC1_T1}. -/
theorem get_all_FCx_Tx_values_spec :
    (∀ (tags : List ObjectTag) (v : String),
      (v ∈ (get_all_FCx_Tx_values tags).1 ↔
        v ∈ allValues tags ∧ pyInChar '_' v = false ∧ v ≠ "all") ∧
      (v ∈ (get_all_FCx_Tx_values tags).2 ↔
        v ∈ allValues tags ∧ pyInChar '_' v = true)) ∧
    get_all_FCx_Tx_values [⟨some "FC1_T1", some "FC1,FC2", []⟩] =
      ({"FC1", "FC2"}, {"FC1_T1"}) := by
  constructor
  · intro tags v
    have h := mem_classify_foldl (allValues tags) (∅, ∅) v
    simpa [get_all_FCx_Tx_values] using h
  · decide

/-- Matcher for the anchored regex `FC\d+_T\d+` of `make_validation`
(Python `\d` is modelled as an ASCII digit; the repo only uses ASCII). -/
def fcxTyChars (cs : List Char) : Bool :=
  match cs with
  | 'F' :: 'C' :: rest =>
    let ds := rest.takeWhile Char.isDigit
    let r1 := rest.dropWhile Char.isDigit
    !ds.isEmpty &&
      (match r1 with
       | '_' :: 'T' :: rest2 =>
         let ds2 := rest2.takeWhile Char.isDigit
         let r2 := rest2.dropWhile Char.isDigit
         !ds2.isEmpty && r2.isEmpty
       | _ => false)
  | _ => false

/-- Fuel-driven matcher for the anchored regex `(FC\d+_)*all`: repeatedly
consume `FC<digits>_` groups, then require the literal `all`. Each step
consumes at least four characters, so fuel `length + 1` always suffices. -/
def fcxAllCharsF : Nat → List Char → Bool
  | 0, _ => false
  | fuel + 1, cs =>
    match cs with
    | 'F' :: 'C' :: rest =>
      let ds := rest.takeWhile Char.isDigit
      let r1 := rest.dropWhile Char.isDigit
      !ds.isEmpty &&
        (match r1 with
         | '_' :: rest2 => fcxAllCharsF fuel rest2
         | _ => false)
    | other => other == ['a', 'l', 'l']

/-- Matcher for the anchored regex `(FC\d+_)*all`. -/
def fcxAllChars (cs : List Char) : Bool :=
  fcxAllCharsF (cs.length + 1) cs

/-- One group `,?(FC\d+|all)` of the feature-class regex; returns the
remaining input on success. -/
def fcFieldGroup (cs : List Char) : Option (List Char) :=
  let cs1 := match cs with
    | ',' :: t => t
    | _ => cs
  match cs1 with
  | 'F' :: 'C' :: rest =>
    if (rest.takeWhile Char.isDigit).isEmpty then none
    else some (rest.dropWhile Char.isDigit)
  | 'a' :: 'l' :: 'l' :: rest => some rest
  | _ => none

/-- Fuel-driven matcher for the anchored regex `((,?FC\d+)|(,?all))+`:
at least one group, and the input must be exhausted. Each group consumes at
least three characters, so fuel `length + 1` always suffices. -/
def fcFieldMatchF : Nat → List Char → Bool
  | 0, _ => false
  | fuel + 1, cs =>
    match fcFieldGroup cs with
    | none => false
    | some rest => rest.isEmpty || fcFieldMatchF fuel rest

/-- Matcher for the anchored regex `((,?FC\d+)|(,?all))+`. -/
def fcFieldChars (cs : List Char) : Bool :=
  fcFieldMatchF (cs.length + 1) cs

/-- Python `re.search` with a `^...$`-anchored pattern: the whole string
matches, or the whole string minus a single trailing newline matches
(`$` also matches just before a terminal newline). -/
def searchAnchored (core : List Char → Bool) (s : String) : Bool :=
  core s.toList || ((s.toList.getLast? == some '\n') && core s.toList.dropLast)

/-- `FCx_Ty_re.search` of `make_validation`. -/
def FCx_Ty_search (s : String) : Bool :=
  searchAnchored fcxTyChars s

/-- `FCx_all_re.search` of `make_validation`. -/
def FCx_all_search (s : String) : Bool :=
  searchAnchored fcxAllChars s

/-- `FCx_re.search` of `make_validation` (whole feature_class field). -/
def FCx_field_search (s : String) : Bool :=
  searchAnchored fcFieldChars s

/-- Threat-attribute violations contributed by one object tag in
`make_validation`: one `Incorrect threat value` entry per comma-split token
of the stripped field that matches neither regex. A falsy attribute is
skipped. -/
def threatErrorsOf (tag : ObjectTag) : List String :=
  match tag.threat with
  | none => []
  | some s =>
    if s = "" then []
    else
      ((pySplitOn ',' (pyStrip s)).filter
        (fun tok => !FCx_Ty_search tok && !FCx_all_search tok)).map
        (fun _ => "Incorrect threat value: " ++ s)

/-- Feature-class violations contributed by one object tag in
`make_validation`: one `Incorrect feature_class value` entry when the
stripped field fails the whole-field regex. A falsy attribute is skipped. -/
def fcErrorsOf (tag : ObjectTag) : List String :=
  match tag.feature_class with
  | none => []
  | some s =>
    if s = "" then []
    else if FCx_field_search (pyStrip s) then []
    else ["Incorrect feature_class value: " ++ pyStrip s]

/-- The first loop of `make_validation` over all object tags. -/
def threatErrors : List ObjectTag → List String
  | [] => []
  | t :: ts => threatErrorsOf t ++ threatErrors ts

/-- The second loop of `make_validation` over all object tags. -/
def fcErrors : List ObjectTag → List String
  | [] => []
  | t :: ts => fcErrorsOf t ++ fcErrors ts

/-- The aggregated `error_list` of `make_validation`
(`threat_opacity_xml_creator.py` lines 121-165); the script exits non-zero
exactly when this list is non-empty. -/
def make_validation (tags : List ObjectTag) : List String :=
  threatErrors tags ++ fcErrors tags

/-- Matcher for a single `FC\d+_all` token, the shape named by the
specification sentence for the threat grammar. Stated separately from
`fcxAllChars` so the two grammars can be compared. -/
def fcxAllSingleChars (cs : List Char) : Bool :=
  match cs with
  | 'F' :: 'C' :: rest =>
    let ds := rest.takeWhile Char.isDigit
    let r1 := rest.dropWhile Char.isDigit
    !ds.isEmpty && r1 == ['_', 'a', 'l', 'l']
  | _ => false

/-- Threat-token grammar as the specification words it: `FC\d+_T\d+`,
`FC\d+_all`, or the bare wildcard `all`. -/
def claimedThreatTokenOK (tok : String) : Bool :=
  fcxTyChars tok.toList || fcxAllSingleChars tok.toList || tok == "all"

/-- C3 as stated is false: the token `FC1_FC2_all` matches none of the
claimed token shapes, yet `make_validation` reports zero violations for it,
because the code's regex `^(FC\d+_)*all$` accepts any number of `FC<digits>_`
groups before `all`. -/
theorem make_validation_counterexample :
    make_validation [⟨some "FC1_FC2_all", none, []⟩] = [] ∧
    claimedThreatTokenOK "FC1_FC2_all" = false := by
  decide

/-- Per-tag characterization: the threat loop contributes no violation for a
tag exactly when every comma-split token of its stripped threat field passes
one of the two code regexes. -/
theorem threatErrorsOf_eq_nil_iff (tag : ObjectTag) :
    threatErrorsOf tag = [] ↔
      ∀ s, tag.threat = some s → s ≠ "" →
        ∀ tok ∈ pySplitOn ',' (pyStrip s), FCx_Ty_search tok = true ∨ FCx_all_search tok = true := by
  match h : tag.threat with
  | none => simp [threatErrorsOf, h]
  | some s =>
    by_cases hs : s = ""
    · simp [threatErrorsOf, h, hs]
    · simp only [threatErrorsOf, h]
      rw [if_neg hs]
      simp only [List.map_eq_nil_iff, List.filter_eq_nil_iff]
      constructor
      · intro hall s2 hs2 _ tok htok
        injection hs2 with hs2
        subst hs2
        have := hall tok htok
        rcases hA : FCx_Ty_search tok with _ | _ <;> rcases hB : FCx_all_search tok with _ | _ <;>
          simp_all
      · intro hall tok htok
        have := hall s rfl hs tok htok
        rcases this with hA | hB
        · simp [hA]
        · simp [hB]

/-- Per-tag characterization: the feature-class loop contributes no
violation for a tag exactly when its stripped non-empty field passes the
whole-field regex. -/
theorem fcErrorsOf_eq_nil_iff (tag : ObjectTag) :
    fcErrorsOf tag = [] ↔
      ∀ s, tag.feature_class = some s → s ≠ "" → FCx_field_search (pyStrip s) = true := by
  match h : tag.feature_class with
  | none => simp [fcErrorsOf, h]
  | some s =>
    by_cases hs : s = ""
    · simp [fcErrorsOf, h, hs]
    · rcases hF : FCx_field_search (pyStrip s) with _ | _ <;>
        simp [fcErrorsOf, h, hs, hF]

/-- The threat loop reports nothing exactly when every tag's threat field is
clean. -/
theorem threatErrors_eq_nil_iff (tags : List ObjectTag) :
    threatErrors tags = [] ↔ ∀ tag ∈ tags, threatErrorsOf tag = [] := by
  induction tags with
  | nil => simp [threatErrors]
  | cons t ts ih => simp [threatErrors, ih]

/-- The feature-class loop reports nothing exactly when every tag's
feature-class field is clean. -/
theorem fcErrors_eq_nil_iff (tags : List ObjectTag) :
    fcErrors tags = [] ↔ ∀ tag ∈ tags, fcErrorsOf tag = [] := by
  induction tags with
  | nil => simp [fcErrors]
  | cons t ts ih => simp [fcErrors, ih]

/-- C3 (amended). `make_validation` reports zero violations exactly when
every comma-split token of every stripped non-empty `threat` field matches
the code regex `FC\d+_T\d+` or `(FC\d+_)*all` (not the stricter `FC\d+_all`
of the claim), and every stripped non-empty `feature_class` field, as a
whole, matches `((,?FC\d+)|(,?all))+`; the claim's two concrete examples
hold: `threat="FC1_T1,FC2_all"` with `feature_class="FC3"` yields zero
violations, `threat="FCx_T1"` yields exactly one. -/
theorem make_validation_spec :
    (∀ tags : List ObjectTag, make_validation tags = [] ↔
      ∀ tag ∈ tags,
        (∀ s, tag.threat = some s → s ≠ "" →
          ∀ tok ∈ pySplitOn ',' (pyStrip s),
            FCx_Ty_search tok = true ∨ FCx_all_search tok = true) ∧
        (∀ s, tag.feature_class = some s → s ≠ "" →
          FCx_field_search (pyStrip s) = true)) ∧
    make_validation [⟨some "FC1_T1,FC2_all", some "FC3", []⟩] = [] ∧
    (make_validation [⟨some "FCx_T1", none, []⟩]).length = 1 := by
  refine ⟨?_, by decide, by decide⟩
  intro tags
  rw [make_validation, List.append_eq_nil, threatErrors_eq_nil_iff, fcErrors_eq_nil_iff]
  constructor
  · rintro ⟨hT, hF⟩ tag htag
    exact ⟨(threatErrorsOf_eq_nil_iff tag).mp (hT tag htag),
      (fcErrorsOf_eq_nil_iff tag).mp (hF tag htag)⟩
  · intro h
    exact ⟨fun tag htag => (threatErrorsOf_eq_nil_iff tag).mpr (h tag htag).1,
      fun tag htag => (fcErrorsOf_eq_nil_iff tag).mpr (h tag htag).2⟩

/-!
Diagram codec model, shared by `decompress` in
`threat_opacity_xml_creator.py` and `write_decompressed_main` in `render.py`
(the two files contain byte-identical copies of the inner `_extract_graph`).
The external library calls (BeautifulSoup parsing, `base64.b64decode`,
`zlib.decompress` + strict UTF-8 decode + `unquote`, lenient UTF-8 decode)
are opaque to the scripts, so they are modelled symbolically: a byte string
is represented by what each decode path would yield from it. Both scripts
look at most two encoding levels deep (`_extract_graph` recurses exactly
once into a nested `mxfile > diagram`), and at the inner level only the
presence of an `mxGraphModel` is inspected, so the model is stratified into
an outer and an inner layer.
-/

/-- A canonical `mxGraphModel` graph, identified abstractly. -/
inductive Graph where
  | mk (id : Nat)
deriving DecidableEq, Repr

/-- Parsed XML text at the inner nesting level: `_extract_graph` only asks
whether `find('mxGraphModel')` (or the equivalent `mxfile > diagram >
mxGraphModel` selector) succeeds there. -/
inductive XmlInner where
  | graphDoc (g : Graph)
  | noGraph
deriving DecidableEq, Repr

/-- Result of `unquote(zlib.decompress(bytes).decode('utf-8'))` at the
inner level: the deflate-or-strict-UTF-8 step raises, or yields XML text. -/
inductive InflInner where
  | fail
  | ok (x : XmlInner)
deriving DecidableEq, Repr

/-- A byte string at the inner level: its lenient UTF-8 reading (always
defined, `errors='ignore'`) and its deflate reading (may fail). -/
structure BytesInner where
  asText : XmlInner
  inflated : InflInner
deriving DecidableEq, Repr

/-- Text content of a nested `mxfile > diagram` element: empty after
stripping, not valid base64, or base64 of some bytes. -/
inductive DiagTextInner where
  | empty
  | notB64
  | b64 (b : BytesInner)
deriving DecidableEq, Repr

/-- Parsed XML text at the outer level, as far as `_extract_graph` can
distinguish it: a parse containing an `mxGraphModel` anywhere (found by
`find`, which also covers the `mxfile > diagram > mxGraphModel` selector), a
parse with no graph but a nested `mxfile > diagram` carrying text, or
anything else. `plain` records whether the text passes the
`looks_like_xml` substring test of `decompress`; text containing an
`mxGraphModel` or `mxfile` tag necessarily contains the literal substrings
`<mxGraphModel` / `<mxfile`, so the test holds for the first two shapes. -/
inductive XmlOuter where
  | graphDoc (g : Graph)
  | mxfileEnc (t : DiagTextInner)
  | plain (looksXml : Bool)
deriving DecidableEq, Repr

/-- Result of the outer deflate + strict UTF-8 + `unquote` step. -/
inductive InflOuter where
  | fail
  | ok (x : XmlOuter)
deriving DecidableEq, Repr

/-- A byte string produced by the outer `base64.b64decode`. -/
structure BytesOuter where
  asText : XmlOuter
  inflated : InflOuter
deriving DecidableEq, Repr

/-- Text content of the outer `diagram` element. -/
inductive DiagTextOuter where
  | empty
  | notB64
  | b64 (b : BytesOuter)
deriving DecidableEq, Repr

/-- Content of the `diagram` element: an already embedded canonical graph,
or text to be decoded. -/
inductive Payload where
  | graph (g : Graph)
  | text (t : DiagTextOuter)
deriving DecidableEq, Repr

/-- A diagram document as both codec functions see it: presence of the
`diagram` and `mxfile` elements, the `mxfile` element's `compressed`
attribute value (if present), whether the `diagram` element carries a
`compressed` attribute, and the diagram payload. -/
structure MxDoc where
  hasDiagram : Bool
  hasMxfile : Bool
  fileCompressed : Option String
  diagCompressed : Bool
  payload : Payload
deriving DecidableEq, Repr

/-- The `looks_like_xml` test of `decompress` step 2 on decoded text. -/
def looksLikeXml : XmlOuter → Bool
  | .graphDoc _ => true
  | .mxfileEnc _ => true
  | .plain b => b

/-- The nested branch of `_extract_graph`: base64-decode the inner
`mxfile > diagram` text, try deflate + strict UTF-8 + `unquote`, fall back
to lenient UTF-8, and look for an `mxGraphModel` in the result. Any
exception leaves the graph unset. -/
def extract_graph_nested : DiagTextInner → Option Graph
  | .empty => none
  | .notB64 => none
  | .b64 b =>
    match b.inflated with
    | .ok x =>
      match x with
      | .graphDoc g => some g
      | .noGraph => none
    | .fail =>
      match b.asText with
      | .graphDoc g => some g
      | .noGraph => none

/-- `_extract_graph(xml_text)` as defined identically in both scripts:
`find('mxGraphModel')`, the `mxfile > diagram > mxGraphModel` selector
(already covered by `find`), then the one-level nested decode. -/
def extract_graph : XmlOuter → Option Graph
  | .graphDoc g => some g
  | .mxfileEnc t => extract_graph_nested t
  | .plain _ => none

/-- Flag normalization applied on every embedding path: set
`mxfile.compressed = "false"` when an `mxfile` element exists and delete the
`diagram` element's `compressed` attribute. -/
def normalizeFlags (doc : MxDoc) : MxDoc :=
  { doc with
    fileCompressed := if doc.hasMxfile then some "false" else doc.fileCompressed,
    diagCompressed := false }

/-- `decompress(original_soup)` from `threat_opacity_xml_creator.py` lines
16-118, as a function on the document: no diagram element, an already
embedded graph, empty text, or non-base64 text each leave the document
unchanged; otherwise the plain-XML reading of the decoded bytes is tried
first (behind the `looks_like_xml` gate), then the deflate reading; on
success the graph replaces the payload and compression flags are
normalized, on failure the document is left as-is. -/
def decompress (doc : MxDoc) : MxDoc :=
  if !doc.hasDiagram then doc
  else
    match doc.payload with
    | .graph _ => doc
    | .text .empty => doc
    | .text .notB64 => doc
    | .text (.b64 b) =>
      let direct : Option Graph :=
        if looksLikeXml b.asText then extract_graph b.asText else none
      match direct with
      | some g => normalizeFlags { doc with payload := .graph g }
      | none =>
        match b.inflated with
        | .fail => doc
        | .ok x =>
          match extract_graph x with
          | some g => normalizeFlags { doc with payload := .graph g }
          | none => doc

/-- `write_decompressed_main(src_xml, dest_xml)` from `render.py` lines
226-318 (identical in `sync_and_render.py`), as a function from the parsed
source document to the written destination document or a raised
`ValueError`: missing diagram, empty text, non-base64 text, and
no-extractable-graph all raise; an already embedded graph only has its
flags normalized; otherwise the deflate reading of the decoded bytes is
attempted first, and the plain-XML reading is the fallback. -/
def write_decompressed_main (doc : MxDoc) : Except String MxDoc :=
  if !doc.hasDiagram then .error "Expected diagram with base64 content, but none found"
  else
    match doc.payload with
    | .graph _ => .ok (normalizeFlags doc)
    | .text .empty => .error "Diagram has no text content to decode"
    | .text .notB64 => .error "Diagram text is not valid base64"
    | .text (.b64 b) =>
      let fromDeflate : Option Graph :=
        match b.inflated with
        | .ok x => extract_graph x
        | .fail => none
      let graph : Option Graph :=
        match fromDeflate with
        | some g => some g
        | none => extract_graph b.asText
      match graph with
      | some g => .ok (normalizeFlags { doc with payload := .graph g })
      | none => .error "Failed to obtain mxGraphModel from diagram content"

/-- The encoded payload shapes enumerated by the specification:
base64(plain XML with a graph), base64(raw-deflate(percent-encoded XML with
a graph)), and the one-level-nested variants where the decoded text is an
`mxfile > diagram` wrapper whose inner text is again base64 of plain or
deflated XML. -/
def encodesGraph (t : DiagTextOuter) (g : Graph) : Prop :=
  t = .b64 ⟨.graphDoc g, .fail⟩ ∨
  (∃ junk, t = .b64 ⟨.plain junk, .ok (.graphDoc g)⟩) ∨
  t = .b64 ⟨.mxfileEnc (.b64 ⟨.graphDoc g, .fail⟩), .fail⟩ ∨
  t = .b64 ⟨.mxfileEnc (.b64 ⟨.noGraph, .ok (.graphDoc g)⟩), .fail⟩ ∨
  (∃ junk, t = .b64 ⟨.plain junk, .ok (.mxfileEnc (.b64 ⟨.graphDoc g, .fail⟩))⟩) ∨
  (∃ junk, t = .b64 ⟨.plain junk, .ok (.mxfileEnc (.b64 ⟨.noGraph, .ok (.graphDoc g)⟩))⟩)

/-- C4. On every document whose payload text is base64 of plain XML with a
graph, base64 of raw-deflate of percent-encoded XML with a graph, or a
one-level-nested variant of these forms, both codec implementations succeed
and embed the original graph into the payload, with compression flags
normalized. -/
theorem normalize_decodes_encoded_payloads (doc : MxDoc) (t : DiagTextOuter) (g : Graph)
    (hd : doc.hasDiagram = true) (hp : doc.payload = .text t) (he : encodesGraph t g) :
    decompress doc = normalizeFlags { doc with payload := .graph g } ∧
    write_decompressed_main doc = .ok (normalizeFlags { doc with payload := .graph g }) := by
  rcases he with h | ⟨j, h⟩ | h | h | ⟨j, h⟩ | ⟨j, h⟩ <;> subst h <;>
    constructor <;>
      simp [decompress, write_decompressed_main, hd, hp, extract_graph,
        extract_graph_nested, looksLikeXml]

/-- Concrete instance of C4: a base64-plain-XML payload is decoded and
embedded by both codec functions. -/
theorem normalize_decodes_encoded_payloads_witness :
    decompress ⟨true, true, none, true, .text (.b64 ⟨.graphDoc (.mk 5), .fail⟩)⟩ =
      normalizeFlags ⟨true, true, none, true, .graph (.mk 5)⟩ ∧
    write_decompressed_main ⟨true, true, none, true, .text (.b64 ⟨.graphDoc (.mk 5), .fail⟩)⟩ =
      .ok (normalizeFlags ⟨true, true, none, true, .graph (.mk 5)⟩) :=
  normalize_decodes_encoded_payloads
    ⟨true, true, none, true, .text (.b64 ⟨.graphDoc (.mk 5), .fail⟩)⟩
    (.b64 ⟨.graphDoc (.mk 5), .fail⟩) (.mk 5) rfl rfl (Or.inl rfl)

/-- A payload from which neither decode path can produce a graph: empty
text, non-base64 text, or decoded bytes from which neither the plain-XML
reading nor the deflate reading yields a graph. -/
def unextractable : DiagTextOuter → Prop
  | .empty => True
  | .notB64 => True
  | .b64 b => extract_graph b.asText = none ∧ ∀ x, b.inflated = .ok x → extract_graph x = none

/-- C5 as stated is false for the variant tool's `decompress`: on a
non-base64 payload it does not fail; it returns the document unchanged, with
the payload still carrying the encoded text. -/
theorem decompress_returns_encoded_counterexample :
    decompress ⟨true, true, none, true, .text .notB64⟩ = ⟨true, true, none, true, .text .notB64⟩ ∧
    (decompress ⟨true, true, none, true, .text .notB64⟩).payload = .text .notB64 := by
  decide

/-- C5 (amended). On every document whose payload is not a canonical graph
and from which no graph is extractable, `write_decompressed_main` raises
(returns an error and never a document), while the variant tool's
`decompress` leaves the document - encoded payload included - unchanged
without failing. -/
theorem normalize_unextractable_spec (doc : MxDoc) (t : DiagTextOuter)
    (hd : doc.hasDiagram = true) (hp : doc.payload = .text t) (hu : unextractable t) :
    (∃ e, write_decompressed_main doc = Except.error e) ∧ decompress doc = doc := by
  cases t with
  | empty =>
    exact ⟨⟨"Diagram has no text content to decode",
      by simp [write_decompressed_main, hd, hp]⟩, by simp [decompress, hd, hp]⟩
  | notB64 =>
    exact ⟨⟨"Diagram text is not valid base64",
      by simp [write_decompressed_main, hd, hp]⟩, by simp [decompress, hd, hp]⟩
  | b64 b =>
    obtain ⟨h1, h2⟩ := hu
    cases hI : b.inflated with
    | fail =>
      exact ⟨⟨"Failed to obtain mxGraphModel from diagram content",
        by simp [write_decompressed_main, hd, hp, hI, h1]⟩,
        by simp [decompress, hd, hp, hI, h1]⟩
    | ok x =>
      have hx := h2 x hI
      exact ⟨⟨"Failed to obtain mxGraphModel from diagram content",
        by simp [write_decompressed_main, hd, hp, hI, h1, hx]⟩,
        by simp [decompress, hd, hp, hI, h1, hx]⟩

/-- Concrete instance of the amended C5: an empty payload makes
`write_decompressed_main` raise and leaves `decompress` a no-op. -/
theorem normalize_unextractable_spec_witness :
    (∃ e, write_decompressed_main ⟨true, true, none, true, .text .empty⟩ = Except.error e) ∧
    decompress ⟨true, true, none, true, .text .empty⟩ = ⟨true, true, none, true, .text .empty⟩ :=
  normalize_unextractable_spec ⟨true, true, none, true, .text .empty⟩ .empty rfl rfl trivial

/-- Extraction success forces the `looks_like_xml` gate of `decompress`:
text from which `_extract_graph` finds a graph contains an `mxGraphModel` or
`mxfile` tag, hence the literal substring the gate tests for. -/
theorem looksLikeXml_of_extract (x : XmlOuter) (g : Graph) (h : extract_graph x = some g) :
    looksLikeXml x = true := by
  cases x <;> simp_all [extract_graph, looksLikeXml]

/-- C6 as stated is false for `write_decompressed_main`: on decoded bytes
whose plain-XML reading contains graph 1 and whose deflate reading contains
graph 2, the embedded graph is graph 2 - the deflate attempt comes first in
`render.py`, not the direct-XML attempt. -/
theorem deflate_first_counterexample :
    write_decompressed_main
      ⟨true, true, none, false, .text (.b64 ⟨.graphDoc (.mk 1), .ok (.graphDoc (.mk 2))⟩)⟩ =
      Except.ok ⟨true, true, some "false", false, .graph (.mk 2)⟩ ∧
    Graph.mk 2 ≠ Graph.mk 1 :=
  ⟨rfl, by decide⟩

/-- C6 (amended). The variant tool's `decompress` attempts plain-XML
extraction on the decoded bytes first and embeds its graph even when the
deflate path would also succeed; `write_decompressed_main` attempts deflate
first and embeds the deflate path's graph even when the direct path would
also succeed. -/
theorem extract_order_spec (doc : MxDoc) (b : BytesOuter) (g1 g2 : Graph) (x : XmlOuter)
    (hd : doc.hasDiagram = true) (hp : doc.payload = .text (.b64 b))
    (h1 : extract_graph b.asText = some g1)
    (hx : b.inflated = .ok x) (h2 : extract_graph x = some g2) :
    decompress doc = normalizeFlags { doc with payload := .graph g1 } ∧
    write_decompressed_main doc = .ok (normalizeFlags { doc with payload := .graph g2 }) := by
  have hlx := looksLikeXml_of_extract b.asText g1 h1
  constructor
  · simp [decompress, hd, hp, hlx, h1]
  · simp [write_decompressed_main, hd, hp, hx, h2]

/-- Concrete instance of the amended C6 on bytes decodable by both paths. -/
theorem extract_order_spec_witness :
    decompress ⟨true, false, none, false, .text (.b64 ⟨.graphDoc (.mk 1), .ok (.graphDoc (.mk 2))⟩)⟩ =
      normalizeFlags ⟨true, false, none, false, .graph (.mk 1)⟩ ∧
    write_decompressed_main
        ⟨true, false, none, false, .text (.b64 ⟨.graphDoc (.mk 1), .ok (.graphDoc (.mk 2))⟩)⟩ =
      .ok (normalizeFlags ⟨true, false, none, false, .graph (.mk 2)⟩) :=
  extract_order_spec ⟨true, false, none, false, .text (.b64 ⟨.graphDoc (.mk 1), .ok (.graphDoc (.mk 2))⟩)⟩
    ⟨.graphDoc (.mk 1), .ok (.graphDoc (.mk 2))⟩ (.mk 1) (.mk 2) (.graphDoc (.mk 2))
    rfl rfl rfl rfl rfl

/-- Flag normalization is idempotent. -/
theorem normalizeFlags_idem (doc : MxDoc) :
    normalizeFlags (normalizeFlags doc) = normalizeFlags doc := by
  cases hM : doc.hasMxfile <;> simp [normalizeFlags, hM]

/-- `write_decompressed_main` on a document whose payload already carries a
graph: it only normalizes the flags. -/
theorem wdm_on_graph (d : MxDoc) (g : Graph) (hd : d.hasDiagram = true)
    (hp : d.payload = .graph g) :
    write_decompressed_main d = .ok (normalizeFlags d) := by
  simp [write_decompressed_main, hd, hp]

/-- Every run of `decompress` either leaves the document unchanged or embeds
some graph with normalized flags. -/
theorem decompress_cases (doc : MxDoc) :
    decompress doc = doc ∨
    ∃ g, doc.hasDiagram = true ∧
      decompress doc = normalizeFlags { doc with payload := .graph g } := by
  unfold decompress
  cases hD : doc.hasDiagram
  · simp
  · simp only [Bool.not_true, Bool.false_eq_true, if_false]
    split
    · left; rfl
    · left; rfl
    · left; rfl
    · rename_i b heq
      split
      · rename_i g hg
        exact Or.inr ⟨g, by trivial, rfl⟩
      · split
        · left; rfl
        · split
          · rename_i x hx g hg
            exact Or.inr ⟨g, by trivial, rfl⟩
          · left; rfl

/-- C8 as stated is false for the variant tool's `decompress`: on a document
whose payload already contains a graph and whose `diagram` element carries a
`compressed` attribute, `decompress` returns without touching the flags, so
the compressed marker is not removed. -/
theorem decompress_flags_counterexample :
    decompress ⟨true, true, some "true", true, .graph (.mk 1)⟩ =
      ⟨true, true, some "true", true, .graph (.mk 1)⟩ ∧
    (decompress ⟨true, true, some "true", true, .graph (.mk 1)⟩).diagCompressed = true := by
  decide

/-- C8 (amended). On a document whose payload already contains a canonical
graph, `write_decompressed_main` leaves the graph unchanged and only
normalizes the compression flags, while the variant tool's `decompress`
returns the document entirely unchanged, flags included; both functions are
idempotent, so applying either twice yields the same result as applying it
once. -/
theorem normalize_on_embedded_and_idempotent :
    (∀ (doc : MxDoc) (g : Graph), doc.hasDiagram = true → doc.payload = .graph g →
      write_decompressed_main doc = .ok (normalizeFlags doc) ∧ decompress doc = doc) ∧
    (∀ doc : MxDoc, decompress (decompress doc) = decompress doc) ∧
    (∀ doc doc2 : MxDoc, write_decompressed_main doc = .ok doc2 →
      write_decompressed_main doc2 = .ok doc2) := by
  refine ⟨fun doc g hd hp => ⟨wdm_on_graph doc g hd hp, by simp [decompress, hd, hp]⟩, ?_, ?_⟩
  · intro doc
    rcases decompress_cases doc with h | ⟨g, hD, h⟩
    · rw [h, h]
    · rw [h]
      have hD2 : (normalizeFlags { doc with payload := .graph g }).hasDiagram = true := by
        simp [normalizeFlags, hD]
      simp [decompress, hD2, normalizeFlags]
  · intro doc doc2 h
    unfold write_decompressed_main at h
    cases hD : doc.hasDiagram
    · rw [hD] at h; simp at h
    · rw [hD] at h
      simp only [Bool.not_true, Bool.false_eq_true, if_false] at h
      split at h
      · rename_i g hg
        injection h with h
        subst h
        rw [wdm_on_graph (normalizeFlags doc) g (by simp [normalizeFlags, hD])
          (by simp [normalizeFlags, hg]), normalizeFlags_idem]
      · simp at h
      · simp at h
      · rename_i b heq
        split at h
        · rename_i g hg
          injection h with h
          subst h
          rw [wdm_on_graph _ g (by simp [normalizeFlags, hD]) (by simp [normalizeFlags]),
            normalizeFlags_idem]
        · simp at h

/-- Concrete instance of the amended C8: a document with an embedded graph
is flag-normalized by `write_decompressed_main` and untouched by
`decompress`. -/
theorem normalize_on_embedded_witness :
    write_decompressed_main ⟨true, true, some "true", true, .graph (.mk 3)⟩ =
      .ok (normalizeFlags ⟨true, true, some "true", true, .graph (.mk 3)⟩) ∧
    decompress ⟨true, true, some "true", true, .graph (.mk 3)⟩ =
      ⟨true, true, some "true", true, .graph (.mk 3)⟩ :=
  normalize_on_embedded_and_idempotent.1 ⟨true, true, some "true", true, .graph (.mk 3)⟩
    (.mk 3) rfl rfl

/-!
Render engine model (`drawio_export` in `render.py` lines 320-391, identical
in `sync_and_render.py`). One renderer invocation is modelled by its exit
code and the lines of its combined, stripped stdout+stderr; the two regex
pattern sets are constants, so a line is modelled together with the two
booleans saying whether `FILTER_PATTERNS.search` / `FATAL_PATTERNS.search`
match it. The per-line logging loop only emits debug/error diagnostics and
is dropped; the `filtered_tail` computation is kept because every failing
attempt emits it to the warning log (`logger.warning`). The `RuntimeError`
raised when the retries are exhausted carries only a fixed message naming
the attempt count - the filtered tail is not part of it. -/

/-- One line of the renderer's combined output, with the two pattern-match
results. -/
structure RenderLine where
  text : String
  isFilter : Bool
  isFatal : Bool
deriving DecidableEq, Repr

/-- One subprocess invocation: `cp.returncode` and
`combined.splitlines()`. -/
structure Attempt where
  returncode : Int
  lines : List RenderLine
deriving DecidableEq, Repr

/-- State of the output file when the post-loop check runs. -/
structure OutFile where
  fileExists : Bool
  size : Nat
deriving DecidableEq, Repr

/-- Result of `drawio_export`: normal return, or one of the three raised
`RuntimeError`s. The retries-exhausted raise carries only its message
string (a fixed text naming the attempt count); the filtered output tail is
emitted to the warning log, never attached to the raise. -/
inductive ExportOutcome where
  | ok
  | failedAfterRetries (msg : String)
  | missingOutput
  | emptyOutput
deriving DecidableEq, Repr

/-- `MAX_RETRIES` of `drawio_export`. -/
def MAX_RETRIES : Nat := 3

/-- Message of the `RuntimeError` raised when the retries are exhausted:
`f"drawio export failed after {MAX_RETRIES} attempts for {input_path}"`.
The interpolated input path lies outside this model; the message contains
no attempt output. -/
def hardFailMessage : String :=
  "drawio export failed after " ++ toString MAX_RETRIES ++ " attempts"

/-- `filtered_tail`: drop the lines matched by `FILTER_PATTERNS`, join with
newlines, keep the last 2000 characters. -/
def filteredTail (lines : List RenderLine) : String :=
  pyLastN 2000 (joinNL ((lines.filter (fun l => !l.isFilter)).map (fun l => l.text)))

/-- The `for attempt in range(1, MAX_RETRIES + 1)` loop: run the attempt;
on a non-zero exit emit `filtered_tail` of its combined output to the
warning log, then retry unless it was the last allowed attempt, in which
case raise the fixed-message `RuntimeError`; break on a zero exit. Returns
the number of the last attempt actually run, the warning tails in emission
order, and the raised message, if any. -/
def runLoop (attempts : Nat → Attempt) : List Nat → Nat × List String × Option String
  | [] => (0, [], none)
  | [i] =>
    let cp := attempts i
    if cp.returncode ≠ 0 then (i, [filteredTail cp.lines], some hardFailMessage)
    else (i, [], none)
  | i :: rest =>
    let cp := attempts i
    if cp.returncode ≠ 0 then
      match runLoop attempts rest with
      | (n, warns, raised) => (n, filteredTail cp.lines :: warns, raised)
    else (i, [], none)

/-- `drawio_export` as a function of the behavior of the i-th subprocess
invocation and the output-file state at check time, returning the outcome,
the number of invocations performed, and the warning-log tails. After the
loop, a missing output file and an empty output file each raise without any
further attempt. -/
def drawio_export (attempts : Nat → Attempt) (out : OutFile) :
    ExportOutcome × Nat × List String :=
  match runLoop attempts (List.range' 1 MAX_RETRIES) with
  | (n, warns, some msg) => (.failedAfterRetries msg, n, warns)
  | (n, warns, none) =>
    if !out.fileExists then (.missingOutput, n, warns)
    else if out.size = 0 then (.emptyOutput, n, warns)
    else (.ok, n, warns)

/-- C9. When the first renderer invocation exits 0 but the output file is
missing or empty, `drawio_export` raises the hard failure after that single
invocation; the post-condition check fires on the first attempt regardless
of the remaining retry budget. -/
theorem drawio_export_zero_exit_postcheck (attempts : Nat → Attempt) (out : OutFile)
    (h0 : (attempts 1).returncode = 0)
    (hbad : out.fileExists = false ∨ out.size = 0) :
    ((drawio_export attempts out).1 = .missingOutput ∨
      (drawio_export attempts out).1 = .emptyOutput) ∧
    (drawio_export attempts out).2.1 = 1 := by
  have hlist : List.range' 1 MAX_RETRIES = [1, 2, 3] := by decide
  have hr : runLoop attempts (List.range' 1 MAX_RETRIES) = (1, [], none) := by
    simp [hlist, runLoop, h0]
  cases hfe : out.fileExists
  · simp [drawio_export, hr, hfe]
  · have hsz : out.size = 0 := by
      rcases hbad with h | h
      · rw [hfe] at h; cases h
      · exact h
    simp [drawio_export, hr, hfe, hsz]

/-- Concrete instance of C9: one zero-exit attempt with a missing output
file raises after exactly one invocation. -/
theorem drawio_export_zero_exit_postcheck_witness :
    ((drawio_export (fun _ => ⟨0, []⟩) ⟨false, 7⟩).1 = .missingOutput ∨
      (drawio_export (fun _ => ⟨0, []⟩) ⟨false, 7⟩).1 = .emptyOutput) ∧
    (drawio_export (fun _ => ⟨0, []⟩) ⟨false, 7⟩).2.1 = 1 :=
  drawio_export_zero_exit_postcheck (fun _ => ⟨0, []⟩) ⟨false, 7⟩ rfl (Or.inl rfl)

/-- C10 as stated is false in its diagnostic clause: with three consecutive
non-zero exits whose combined output is the unfiltered line `BOOM`, the
raised hard failure carries only the fixed attempt-count message - the
noise-filtered tail `BOOM` is not attached to it (it is not even a
substring of the raised message); the tails go to the warning log, one per
failing attempt. -/
theorem drawio_export_tail_counterexample :
    drawio_export (fun _ => ⟨1, [⟨"BOOM", false, false⟩]⟩) ⟨true, 9⟩ =
      (.failedAfterRetries hardFailMessage, 3, ["BOOM", "BOOM", "BOOM"]) ∧
    ¬ ("BOOM".toList <:+: hardFailMessage.toList) := by
  decide

/-- C10 (amended). The renderer subprocess is invoked at most three times;
two non-zero exits followed by a zero exit (with a usable output file)
yield success on exactly the third invocation, with the first two failures'
noise-filtered tails in the warning log; three consecutive non-zero exits
raise the hard failure with the fixed attempt-count message, while the last
2000 characters of each failing attempt's noise-filtered combined output -
the third attempt's included - are emitted to the warning log rather than
attached to the raise. -/
theorem drawio_export_retry_bound (attempts : Nat → Attempt) (out : OutFile) :
    (drawio_export attempts out).2.1 ≤ MAX_RETRIES ∧
    ((attempts 1).returncode ≠ 0 → (attempts 2).returncode ≠ 0 → (attempts 3).returncode = 0 →
      out.fileExists = true → out.size ≠ 0 →
      drawio_export attempts out =
        (.ok, 3, [filteredTail (attempts 1).lines, filteredTail (attempts 2).lines])) ∧
    ((attempts 1).returncode ≠ 0 → (attempts 2).returncode ≠ 0 → (attempts 3).returncode ≠ 0 →
      drawio_export attempts out =
        (.failedAfterRetries hardFailMessage, 3,
          [filteredTail (attempts 1).lines, filteredTail (attempts 2).lines,
            filteredTail (attempts 3).lines])) := by
  have hlist : List.range' 1 MAX_RETRIES = [1, 2, 3] := by decide
  refine ⟨?_, ?_, ?_⟩
  · by_cases h1 : (attempts 1).returncode = 0 <;>
      by_cases h2 : (attempts 2).returncode = 0 <;>
        by_cases h3 : (attempts 3).returncode = 0 <;>
          simp [drawio_export, hlist, runLoop, h1, h2, h3, MAX_RETRIES] <;>
            split_ifs <;> simp
  · intro h1 h2 h3 hfe hsz
    simp [drawio_export, hlist, runLoop, h1, h2, h3, hfe, hsz]
  · intro h1 h2 h3
    simp [drawio_export, hlist, runLoop, h1, h2, h3]

/-- Concrete instance of the amended C10: a renderer stub failing twice
(logging one warning tail each) and succeeding on the third invocation
returns success with exactly three invocations. -/
theorem drawio_export_retry_bound_witness :
    drawio_export (fun i => if i ≤ 2 then ⟨1, [⟨"w", false, false⟩]⟩ else ⟨0, []⟩) ⟨true, 9⟩ =
      (.ok, 3, ["w", "w"]) :=
  (drawio_export_retry_bound
      (fun i => if i ≤ 2 then ⟨1, [⟨"w", false, false⟩]⟩ else ⟨0, []⟩) ⟨true, 9⟩).2.1
    (by decide) (by decide) (by decide) rfl (by decide)

end ThreatModel
